import Mathlib

/-!
Shallow embedding of the pfsync frame decoder (src/pfsync/actions.py and
src/pfsync/messages.py): byte buffers are lists of byte values, the
struct-format strings become explicit field-descriptor lists, and the
decode methods become total functions returning `Except`.
-/

namespace PFSync

/-- Byte buffers: a list of byte values (each 0–255 on real input). -/
abbrev Bytes := List Nat

/-- Error taxonomy of the decoder: a buffer shorter than a layout's
declared width raises `TruncatedInputError`. -/
inductive DecodeError
  | truncatedInput
deriving DecidableEq, Repr

/-- Size and alignment of one C field, as Python's `struct.calcsize` uses
them in native mode (no byte-order prefix on the format string). -/
structure CField where
  size : Nat
  align : Nat
deriving DecidableEq, Repr

/-- Round `off` up to the next multiple of `align`. -/
def alignTo (off align : Nat) : Nat := (off + align - 1) / align * align

/-- Python `struct.calcsize` in native mode: fields are laid out in order,
each padded to its own alignment; no trailing padding is added. -/
def nativeCalcsize (fields : List CField) : Nat :=
  fields.foldl (fun off f => alignTo off f.align + f.size) 0

/-- The field list of the native format string given by the source text
`calcsize('HBBI')` (the pfsync_state_scrub struct). -/
def scrubFields : List CField := [⟨2, 2⟩, ⟨1, 1⟩, ⟨1, 1⟩, ⟨4, 4⟩]

/-- The field list of the native format string the source builds as
`'%dsIIIHHBB6B' % calcsize('HBBI')` (the pfsync_state_peer struct). -/
def statePeerFields : List CField :=
  ⟨nativeCalcsize scrubFields, 1⟩ ::
    ([⟨4, 4⟩, ⟨4, 4⟩, ⟨4, 4⟩, ⟨2, 2⟩, ⟨2, 2⟩, ⟨1, 1⟩, ⟨1, 1⟩] ++
      List.replicate 6 ⟨1, 1⟩)

/-- Byte width of one opaque pfsync_state_peer block, computed as the
source computes it: `calcsize('%dsIIIHHBB6B' % calcsize('HBBI'))`. -/
def state_peer_size : Nat := nativeCalcsize statePeerFields

/-- One field of a big-endian ('!'-prefixed) struct format string:
an unsigned integer of `width` bytes ('B','H','I','Q') or a raw byte
string of `width` bytes ('Ns'). -/
inductive FieldTy
  | uint (width : Nat)
  | raw (width : Nat)
deriving DecidableEq, Repr

/-- Byte width of one field. -/
def FieldTy.width : FieldTy → Nat
  | .uint w => w
  | .raw w => w

/-- Python `struct.calcsize` on a '!'-prefixed format: standard sizes, no
padding — the sum of the field widths. -/
def calcsize (fmt : List FieldTy) : Nat := (fmt.map FieldTy.width).sum

/-- Big-endian (network-order) value of a byte list. -/
def beVal (bs : Bytes) : Nat := bs.foldl (fun acc b => acc * 256 + b) 0

/-- A decoded field value: an unsigned integer or a raw byte string. -/
inductive FieldVal
  | num (n : Nat)
  | raw (bs : Bytes)
deriving DecidableEq, Repr

/-- Decode the fields of a big-endian format from the front of a buffer,
each field consuming exactly its declared width, in declared order. -/
def unpackFields : List FieldTy → Bytes → List FieldVal
  | [], _ => []
  | FieldTy.uint w :: fmt, bs =>
      FieldVal.num (beVal (bs.take w)) :: unpackFields fmt (bs.drop w)
  | FieldTy.raw w :: fmt, bs =>
      FieldVal.raw (bs.take w) :: unpackFields fmt (bs.drop w)

/-- Modelled from the spec: `UnpackableMixin.from_data` (the source's
src/pfsync/mixins.py is not in the repository snapshot; §4.1 of the spec
describes it as FixedLayoutDecoder). It fails with `TruncatedInputError`
when the buffer is shorter than the layout's total byte width; otherwise
it consumes exactly that width from the front, decodes each field per its
declared width in big-endian order, hands the field tuple to the class
constructor `build`, and returns the constructed value with the remaining
bytes. -/
def unpackFrom {α : Type} (fmt : List FieldTy) (build : List FieldVal → α)
    (data : Bytes) : Except DecodeError (α × Bytes) :=
  if data.length < calcsize fmt then Except.error DecodeError.truncatedInput
  else Except.ok (build (unpackFields fmt data), data.drop (calcsize fmt))

/-- Python `socket.inet_ntoa`: exactly four bytes render as a dotted-quad
IPv4 string (any other length raises in Python; that case is unreachable
from `format_addr` on the 16-byte fields this codec passes). -/
def inet_ntoa (bs : Bytes) : String :=
  match bs with
  | [a, b, c, d] =>
      toString a ++ "." ++ toString b ++ "." ++ toString c ++ "." ++ toString d
  | _ => ""

/-- A decoded pfsync_state_key: two formatted addresses and two ports. -/
structure PFStateKey where
  addr : String × String
  port : Nat × Nat
deriving DecidableEq, Repr

/-- Format an address field as a string: only the first 4 bytes are used
(IPv6 unsupported), per `PFStateKey.format_addr`. -/
def PFStateKey.format_addr (addr : Bytes) : String := inet_ntoa (addr.take 4)

/-- The '!16s16s 2H' layout of pfsync_state_key. -/
def PFStateKey.unpack_format : List FieldTy :=
  [FieldTy.raw 16, FieldTy.raw 16, FieldTy.uint 2, FieldTy.uint 2]

/-- Placeholder key for unreachable constructor branches. -/
def junkStateKey : PFStateKey := { addr := ("", ""), port := (0, 0) }

/-- `PFStateKey.__init__`: formats both 16-byte address fields and keeps
the two ports. The catch-all branch is unreachable for this format. -/
def PFStateKey.build : List FieldVal → PFStateKey
  | [FieldVal.raw a1, FieldVal.raw a2, FieldVal.num p1, FieldVal.num p2] =>
      { addr := (PFStateKey.format_addr a1, PFStateKey.format_addr a2),
        port := (p1, p2) }
  | _ => junkStateKey

/-- `PFStateKey.get_cstruct_size()`: the byte width of the key layout. -/
def PFStateKey.get_cstruct_size : Nat := calcsize PFStateKey.unpack_format

/-- `PFStateKey.from_data`: decode one state key from a buffer. -/
def PFStateKey.from_data (data : Bytes) : Except DecodeError (PFStateKey × Bytes) :=
  unpackFrom PFStateKey.unpack_format PFStateKey.build data

/-- The source's `PFStateKey.from_data(buf)[0]`: decode a key from an
exactly-sized nested field (the error case is unreachable there, since
the outer layout hands exactly `get_cstruct_size` bytes). -/
def keyFromBytes (bs : Bytes) : PFStateKey :=
  match PFStateKey.from_data bs with
  | Except.ok (k, _) => k
  | Except.error _ => junkStateKey

/-- The format `MessageState.get_unpack_format` builds:
`'!Q 16s'` + two nested key blobs + two opaque peer blobs +
`'4I IIIII 4I 4I I B BB 2B BBBBB'`. -/
def MessageState.get_unpack_format : List FieldTy :=
  [FieldTy.uint 8, FieldTy.raw 16,
   FieldTy.raw PFStateKey.get_cstruct_size, FieldTy.raw PFStateKey.get_cstruct_size,
   FieldTy.raw state_peer_size, FieldTy.raw state_peer_size] ++
  List.replicate 4 (FieldTy.uint 4) ++
  List.replicate 5 (FieldTy.uint 4) ++
  List.replicate 4 (FieldTy.uint 4) ++
  List.replicate 4 (FieldTy.uint 4) ++
  [FieldTy.uint 4] ++
  List.replicate 10 (FieldTy.uint 1)

/-- A decoded pfsync_state_1301 message, with the attributes
`MessageState.__init__` keeps. -/
structure MessageState where
  id : Nat
  creator : Nat
  interface : Bytes
  key : PFStateKey × PFStateKey
  packets : (Nat × Nat) × (Nat × Nat)
  bytes : (Nat × Nat) × (Nat × Nat)
  protocol : Nat
  direction : Nat
  timeout : Nat
  expire : Nat
  creation : Nat
  rule : Nat
  log : Nat
deriving DecidableEq, Repr

/-- Placeholder state message for unreachable constructor branches. -/
def junkState : MessageState :=
  { id := 0, creator := 0, interface := [],
    key := (junkStateKey, junkStateKey),
    packets := ((0, 0), (0, 0)), bytes := ((0, 0), (0, 0)),
    protocol := 0, direction := 0, timeout := 0,
    expire := 0, creation := 0, rule := 0, log := 0 }

/-- `MessageState.__init__`: positional unpacking of the 34 decoded
fields; the interface name is cut at the first NUL byte
(`ifname.split(b'\x00')[0]`, i.e. the prefix before the first zero), the
two key blobs are decoded through `PFStateKey.from_data(...)[0]`, and the
packet and byte counters are regrouped into 2x2 pairs. The catch-all
branch is unreachable for this format. -/
def MessageState.build : List FieldVal → MessageState
  | FieldVal.num i :: FieldVal.raw ifname ::
    FieldVal.raw k1 :: FieldVal.raw k2 ::
    FieldVal.raw _src :: FieldVal.raw _dst ::
    FieldVal.num _rt1 :: FieldVal.num _rt2 :: FieldVal.num _rt3 :: FieldVal.num _rt4 ::
    FieldVal.num rul :: FieldVal.num _anchor :: FieldVal.num _natRule ::
    FieldVal.num cre :: FieldVal.num exp2 ::
    FieldVal.num p1 :: FieldVal.num p2 :: FieldVal.num p3 :: FieldVal.num p4 ::
    FieldVal.num b1 :: FieldVal.num b2 :: FieldVal.num b3 :: FieldVal.num b4 ::
    FieldVal.num creatorId ::
    FieldVal.num _af ::
    FieldVal.num proto :: FieldVal.num dir ::
    FieldVal.num _sp1 :: FieldVal.num _sp2 ::
    FieldVal.num lg :: FieldVal.num _stateFlags ::
    FieldVal.num tmo :: FieldVal.num _syncFlags :: FieldVal.num _updates :: [] =>
      { id := i, creator := creatorId,
        interface := ifname.takeWhile (fun b => b != 0),
        key := (keyFromBytes k1, keyFromBytes k2),
        packets := ((p1, p2), (p3, p4)),
        bytes := ((b1, b2), (b3, b4)),
        protocol := proto, direction := dir, timeout := tmo,
        expire := exp2, creation := cre, rule := rul, log := lg }
  | _ => junkState

/-- `MessageState.from_data`: decode one state message. -/
def MessageState.from_data (data : Bytes) : Except DecodeError (MessageState × Bytes) :=
  unpackFrom MessageState.get_unpack_format MessageState.build data

/-- `MessageState.is_nat`: the source was NATted iff the stack key's
translated address differs from the wire key's translated address
(`self.key[1].addr[1] != self.key[0].addr[1]`). -/
def MessageState.is_nat (m : MessageState) : Bool :=
  m.key.2.addr.2 != m.key.1.addr.2

/-- `MessageState.get_protocol_name`: the if/elif chain over the protocol
number, defaulting to its decimal text. -/
def MessageState.get_protocol_name (m : MessageState) : String :=
  if m.protocol = 1 then "ICMP"
  else if m.protocol = 6 then "TCP"
  else if m.protocol = 17 then "UDP"
  else if m.protocol = 112 then "VRRP"
  else toString m.protocol

/-- A decoded pfsync_del_c message. -/
structure MessageDeleteCompressed where
  id : Nat
  creator : Nat
deriving DecidableEq, Repr

/-- The '!QI' layout of pfsync_del_c. -/
def MessageDeleteCompressed.unpack_format : List FieldTy :=
  [FieldTy.uint 8, FieldTy.uint 4]

/-- `MessageDeleteCompressed.__init__`. -/
def MessageDeleteCompressed.build : List FieldVal → MessageDeleteCompressed
  | [FieldVal.num i, FieldVal.num c] => { id := i, creator := c }
  | _ => { id := 0, creator := 0 }

/-- `MessageDeleteCompressed.from_data`. -/
def MessageDeleteCompressed.from_data (data : Bytes) :
    Except DecodeError (MessageDeleteCompressed × Bytes) :=
  unpackFrom MessageDeleteCompressed.unpack_format MessageDeleteCompressed.build data

/-- A decoded pfsync_clr message; the interface field keeps the full
16-byte value verbatim. -/
structure MessageClear where
  interface : Bytes
  creator : Nat
deriving DecidableEq, Repr

/-- The '!16s I' layout of pfsync_clr. -/
def MessageClear.unpack_format : List FieldTy :=
  [FieldTy.raw 16, FieldTy.uint 4]

/-- `MessageClear.__init__`: stores the 16-byte interface field as-is. -/
def MessageClear.build : List FieldVal → MessageClear
  | [FieldVal.raw iface, FieldVal.num c] => { interface := iface, creator := c }
  | _ => { interface := [], creator := 0 }

/-- `MessageClear.from_data`. -/
def MessageClear.from_data (data : Bytes) :
    Except DecodeError (MessageClear × Bytes) :=
  unpackFrom MessageClear.unpack_format MessageClear.build data

/-- A decoded pfsync_ins_ack message. -/
structure MessageInsertAck where
  id : Nat
  creator : Nat
deriving DecidableEq, Repr

/-- The '!Q I' layout of pfsync_ins_ack. -/
def MessageInsertAck.unpack_format : List FieldTy :=
  [FieldTy.uint 8, FieldTy.uint 4]

/-- `MessageInsertAck.__init__`. -/
def MessageInsertAck.build : List FieldVal → MessageInsertAck
  | [FieldVal.num i, FieldVal.num c] => { id := i, creator := c }
  | _ => { id := 0, creator := 0 }

/-- `MessageInsertAck.from_data`. -/
def MessageInsertAck.from_data (data : Bytes) :
    Except DecodeError (MessageInsertAck × Bytes) :=
  unpackFrom MessageInsertAck.unpack_format MessageInsertAck.build data

/-- A decoded pfsync_upd_req message. -/
structure MessageUpdateReq where
  id : Nat
  creator : Nat
deriving DecidableEq, Repr

/-- The '!Q I' layout of pfsync_upd_req. -/
def MessageUpdateReq.unpack_format : List FieldTy :=
  [FieldTy.uint 8, FieldTy.uint 4]

/-- `MessageUpdateReq.__init__`. -/
def MessageUpdateReq.build : List FieldVal → MessageUpdateReq
  | [FieldVal.num i, FieldVal.num c] => { id := i, creator := c }
  | _ => { id := 0, creator := 0 }

/-- `MessageUpdateReq.from_data`. -/
def MessageUpdateReq.from_data (data : Bytes) :
    Except DecodeError (MessageUpdateReq × Bytes) :=
  unpackFrom MessageUpdateReq.unpack_format MessageUpdateReq.build data

/-- A decoded pfsync_upd_c message, with the attributes
`MessageUpdateCompressed.__init__` keeps (the three pad bytes are
dropped). -/
structure MessageUpdateCompressed where
  id : Nat
  creator : Nat
  dst : Bytes
  src : Bytes
  expire : Nat
  timeout : Nat
deriving DecidableEq, Repr

/-- The format `MessageUpdateCompressed.get_unpack_format` builds:
`'!Q'` + two opaque peer blobs + `'IIB 3B'`. -/
def MessageUpdateCompressed.get_unpack_format : List FieldTy :=
  [FieldTy.uint 8,
   FieldTy.raw state_peer_size, FieldTy.raw state_peer_size,
   FieldTy.uint 4, FieldTy.uint 4, FieldTy.uint 1,
   FieldTy.uint 1, FieldTy.uint 1, FieldTy.uint 1]

/-- `MessageUpdateCompressed.__init__`. The catch-all branch is
unreachable for this format. -/
def MessageUpdateCompressed.build : List FieldVal → MessageUpdateCompressed
  | [FieldVal.num i, FieldVal.raw s, FieldVal.raw d,
     FieldVal.num c, FieldVal.num e, FieldVal.num t,
     FieldVal.num _p1, FieldVal.num _p2, FieldVal.num _p3] =>
      { id := i, creator := c, dst := d, src := s, expire := e, timeout := t }
  | _ => { id := 0, creator := 0, dst := [], src := [], expire := 0, timeout := 0 }

/-- `MessageUpdateCompressed.from_data`. -/
def MessageUpdateCompressed.from_data (data : Bytes) :
    Except DecodeError (MessageUpdateCompressed × Bytes) :=
  unpackFrom MessageUpdateCompressed.get_unpack_format MessageUpdateCompressed.build data

/-- The closed set of decoded message shapes. -/
inductive Message
  | state (m : MessageState)
  | deleteCompressed (m : MessageDeleteCompressed)
  | clear (m : MessageClear)
  | insertAck (m : MessageInsertAck)
  | updateReq (m : MessageUpdateReq)
  | updateCompressed (m : MessageUpdateCompressed)
deriving DecidableEq, Repr

/-- The sub-header preceding an action's messages: action id and message
count. Owned by the caller; the decoder only reads it. -/
structure SubHeader where
  action_id : Nat
  count : Nat
deriving DecidableEq, Repr

/-- The concrete `BaseAction` subclasses of src/pfsync/actions.py. -/
inductive ActionKind
  | clearStates
  | insertState
  | insertAck
  | updateState
  | updateCompressedState
  | updateRequestState
  | deleteState
  | deleteCompressedState
deriving DecidableEq, Repr

/-- Each action class's `message_class.from_data`, tagged into the
closed `Message` type: InsertState, UpdateState and DeleteState decode
state messages; the others decode their namesakes. -/
def ActionKind.message_class : ActionKind → Bytes → Except DecodeError (Message × Bytes)
  | .clearStates, data =>
      (MessageClear.from_data data).map (fun p => (Message.clear p.1, p.2))
  | .insertState, data =>
      (MessageState.from_data data).map (fun p => (Message.state p.1, p.2))
  | .insertAck, data =>
      (MessageInsertAck.from_data data).map (fun p => (Message.insertAck p.1, p.2))
  | .updateState, data =>
      (MessageState.from_data data).map (fun p => (Message.state p.1, p.2))
  | .updateCompressedState, data =>
      (MessageUpdateCompressed.from_data data).map (fun p => (Message.updateCompressed p.1, p.2))
  | .updateRequestState, data =>
      (MessageUpdateReq.from_data data).map (fun p => (Message.updateReq p.1, p.2))
  | .deleteState, data =>
      (MessageState.from_data data).map (fun p => (Message.state p.1, p.2))
  | .deleteCompressedState, data =>
      (MessageDeleteCompressed.from_data data).map (fun p => (Message.deleteCompressed p.1, p.2))

/-- A populated action: its sub-header, its decoded messages in order,
and which concrete action class produced it. -/
structure BaseAction where
  header : SubHeader
  messages : List Message
  kind : ActionKind
deriving DecidableEq, Repr

/-- The loop body of `BaseAction.from_data`: run the message decoder
`n` times, threading the remainder buffer through each call, collecting
the decoded messages in order. -/
def decodeMessages (dec : Bytes → Except DecodeError (Message × Bytes)) :
    Nat → Bytes → Except DecodeError (List Message × Bytes)
  | 0, data => Except.ok ([], data)
  | n + 1, data =>
      match dec data with
      | Except.error e => Except.error e
      | Except.ok (msg, data1) =>
          match decodeMessages dec n data1 with
          | Except.error e => Except.error e
          | Except.ok (msgs, rest) => Except.ok (msg :: msgs, rest)

/-- `BaseAction.from_data`: extract `shdr.count` messages from `data`
with the class's message decoder and return the populated action with
the rest of the data. -/
def BaseAction.from_data (kind : ActionKind) (data : Bytes) (shdr : SubHeader) :
    Except DecodeError (BaseAction × Bytes) :=
  (decodeMessages kind.message_class shdr.count data).map
    (fun p => ({ header := shdr, messages := p.1, kind := kind }, p.2))

/-- The `actions` lookup table of `build_from_header`, indexed by action
id: entries 0–7 are the eight known action classes, entries 8–14 are
`None`. -/
def actions : List (Option ActionKind) :=
  [some ActionKind.clearStates,
   some ActionKind.insertState,
   some ActionKind.insertAck,
   some ActionKind.updateState,
   some ActionKind.updateCompressedState,
   some ActionKind.updateRequestState,
   some ActionKind.deleteState,
   some ActionKind.deleteCompressedState,
   none, none, none, none, none, none, none]

/-- The table lookup of `build_from_header`: in-range ids read their
entry, out-of-range ids behave like an unmapped entry. -/
def tableEntry (actionId : Nat) : Option ActionKind :=
  actions.getD actionId none

/-- `build_from_header`: the top-level decode entry point. A mapped
action id delegates to that class's `from_data`; otherwise the result is
`None` with an empty remainder (the source replaces the buffer by the
empty value). -/
def build_from_header (shdr : SubHeader) (data : Bytes) :
    Except DecodeError (Option BaseAction × Bytes) :=
  match tableEntry shdr.action_id with
  | some kind =>
      (BaseAction.from_data kind data shdr).map (fun p => (some p.1, p.2))
  | none => Except.ok (none, [])

/-- The value a fixed-width message decoder constructs from the front of
a sufficient buffer, for the compressed-delete message. -/
def mkDeleteCompressed (d : Bytes) : Message :=
  Message.deleteCompressed
    (MessageDeleteCompressed.build (unpackFields MessageDeleteCompressed.unpack_format d))

/-- The StateMessage wire-layout field widths as the specification's
table words them: 8-byte id, 16-byte interface name, 2 nested StateKeys,
2 opaque peer blocks, a 4-byte rt_addr, five 4-byte counters, 4x4-byte
packet counters, 4x4-byte byte counters, a 4-byte creator id, and 8
one-byte fields. Kept only to compare against the source layout. -/
def specStateMessageFieldWidths : List Nat :=
  [8, 16] ++ [36, 36] ++ [32, 32] ++ [4] ++ List.replicate 5 4 ++
    List.replicate 4 4 ++ List.replicate 4 4 ++ [4] ++ List.replicate 8 1

/-- A 242-byte probe buffer whose first 16 bytes and whose bytes 8–24
both contain an interface name with embedded NUL padding. -/
def ifaceProbe : Bytes :=
  [101, 109, 48, 0, 7, 0, 0, 0] ++
    [101, 109, 48, 0, 7, 0, 0, 0, 0, 0, 0, 0, 0, 0, 0, 0] ++
    List.replicate 218 0

/-- A 242-byte probe buffer whose wire-key translated address (bytes
40–44) reads 10.0.0.1 while its stack-key translated address (bytes
76–80) reads 10.0.0.2. -/
def natProbe : Bytes :=
  List.replicate 40 0 ++ [10, 0, 0, 1] ++ List.replicate 32 0 ++
    [10, 0, 0, 2] ++ List.replicate 162 0

/-- Two concatenated 12-byte compressed-delete messages followed by two
stray bytes. -/
def twoDelCBuffer : Bytes :=
  [0, 0, 0, 0, 0, 0, 0, 5, 0, 0, 0, 1] ++
    [0, 0, 0, 0, 0, 0, 0, 6, 0, 0, 0, 2] ++ [9, 9]

/-- The compressed-delete action's message decoder is the fixed-width
decoder of width 12. -/
theorem deleteCompressed_class_fixed (d : Bytes) :
    ActionKind.deleteCompressedState.message_class d =
      if d.length < 12 then Except.error DecodeError.truncatedInput
      else Except.ok (mkDeleteCompressed d, d.drop 12) := by
  have h12 : calcsize MessageDeleteCompressed.unpack_format = 12 := by decide
  simp only [ActionKind.message_class, MessageDeleteCompressed.from_data, unpackFrom, h12,
    mkDeleteCompressed]
  split <;> simp [Except.map]

/-- Running a fixed-width message decoder `n` times over a buffer with at
least `n` messages decodes the `n` chunks in order and leaves the bytes
past the last chunk. -/
theorem decodeMessages_fixed (dec : Bytes → Except DecodeError (Message × Bytes))
    (w : Nat) (mk : Bytes → Message)
    (hdec : ∀ d : Bytes, dec d =
      if d.length < w then Except.error DecodeError.truncatedInput
      else Except.ok (mk d, d.drop w)) :
    ∀ (n : Nat) (data : Bytes), n * w ≤ data.length →
      decodeMessages dec n data =
        Except.ok ((List.range n).map (fun i => mk (data.drop (i * w))),
          data.drop (n * w)) := by
  intro n
  induction n with
  | zero => intro data _; simp [decodeMessages]
  | succ n ih =>
      intro data hlen
      have hlen1 : n * w + w ≤ data.length := by
        have : (n + 1) * w = n * w + w := by ring
        omega
      have hnw : ¬ data.length < w := by omega
      have hrec : n * w ≤ (data.drop w).length := by
        rw [List.length_drop]; omega
      simp only [decodeMessages, hdec data, if_neg hnw]
      rw [ih (data.drop w) hrec]
      refine congrArg Except.ok (Prod.ext ?_ ?_)
      · show mk data :: (List.range n).map (fun i => mk ((data.drop w).drop (i * w))) =
          (List.range (n + 1)).map (fun i => mk (data.drop (i * w)))
        rw [List.range_succ_eq_map, List.map_cons, List.map_map]
        refine congrArg₂ List.cons ?_ ?_
        · exact congrArg mk (by rw [Nat.zero_mul, List.drop_zero])
        · refine List.map_congr_left (fun i _ => ?_)
          refine congrArg mk ?_
          rw [List.drop_drop]
          exact congrArg (fun t => List.drop t data)
            (by rw [Nat.succ_eq_add_one]; ring)
      · show (data.drop w).drop (n * w) = data.drop ((n + 1) * w)
        rw [List.drop_drop]
        exact congrArg (fun t => List.drop t data) (by ring)

/-- Claim C1: for every mapped action id whose message decoder is the
fixed-width decoder of width `w` with constructor `mk`, and every buffer
holding at least `count` messages, `BaseAction.from_data` invokes the
decoder exactly `sub_header.count` times, threading the remainder buffer
through successive calls, and returns an action whose message sequence
holds the `count` decoded messages in input order together with the
bytes following the last message; for `count = 0` it returns an empty
message sequence and the input buffer unchanged. -/
theorem action_decode_loop_spec (kind : ActionKind) (w : Nat) (mk : Bytes → Message)
    (hdec : ∀ d : Bytes, kind.message_class d =
      if d.length < w then Except.error DecodeError.truncatedInput
      else Except.ok (mk d, d.drop w))
    (shdr : SubHeader) (data : Bytes) (hlen : shdr.count * w ≤ data.length) :
    BaseAction.from_data kind data shdr =
      Except.ok ({ header := shdr,
                   messages := (List.range shdr.count).map (fun i => mk (data.drop (i * w))),
                   kind := kind }, data.drop (shdr.count * w)) ∧
    (shdr.count = 0 →
      BaseAction.from_data kind data shdr =
        Except.ok ({ header := shdr, messages := [], kind := kind }, data)) := by
  constructor
  · simp [BaseAction.from_data,
      decodeMessages_fixed kind.message_class w mk hdec shdr.count data hlen, Except.map]
  · intro h0
    simp [BaseAction.from_data, h0, decodeMessages, Except.map]

/-- Witness for C1: two compressed-delete messages extracted in order
from a concrete 26-byte buffer, leaving the two stray trailing bytes. -/
theorem action_decode_loop_witness :
    BaseAction.from_data ActionKind.deleteCompressedState twoDelCBuffer ⟨7, 2⟩ =
      Except.ok ({ header := ⟨7, 2⟩,
                   messages := [Message.deleteCompressed { id := 5, creator := 1 },
                                Message.deleteCompressed { id := 6, creator := 2 }],
                   kind := ActionKind.deleteCompressedState }, [9, 9]) := by
  have h := action_decode_loop_spec ActionKind.deleteCompressedState 12 mkDeleteCompressed
    deleteCompressed_class_fixed ⟨7, 2⟩ twoDelCBuffer (by decide)
  exact h.1.trans (by rfl)

/-- Claim C2: the top-level dispatch table maps action ids 0–7 to the
Clear, InsertState, InsertAck, UpdateState, UpdateCompressed,
UpdateRequest, DeleteState and DeleteCompressed action classes, each
bound to its corresponding message decoder, while ids 8–14 have no
mapped decoder; a mapped entry makes `build_from_header` delegate to
that class's `from_data`. -/
theorem action_table_spec :
    tableEntry 0 = some ActionKind.clearStates ∧
    tableEntry 1 = some ActionKind.insertState ∧
    tableEntry 2 = some ActionKind.insertAck ∧
    tableEntry 3 = some ActionKind.updateState ∧
    tableEntry 4 = some ActionKind.updateCompressedState ∧
    tableEntry 5 = some ActionKind.updateRequestState ∧
    tableEntry 6 = some ActionKind.deleteState ∧
    tableEntry 7 = some ActionKind.deleteCompressedState ∧
    (∀ i : Nat, 8 ≤ i → i ≤ 14 → tableEntry i = none) ∧
    (∀ (shdr : SubHeader) (data : Bytes) (kind : ActionKind),
      tableEntry shdr.action_id = some kind →
      build_from_header shdr data =
        (BaseAction.from_data kind data shdr).map (fun p => (some p.1, p.2))) ∧
    (ActionKind.clearStates.message_class = fun d =>
      (MessageClear.from_data d).map (fun p => (Message.clear p.1, p.2))) ∧
    (ActionKind.insertState.message_class = fun d =>
      (MessageState.from_data d).map (fun p => (Message.state p.1, p.2))) ∧
    (ActionKind.insertAck.message_class = fun d =>
      (MessageInsertAck.from_data d).map (fun p => (Message.insertAck p.1, p.2))) ∧
    (ActionKind.updateState.message_class = fun d =>
      (MessageState.from_data d).map (fun p => (Message.state p.1, p.2))) ∧
    (ActionKind.updateCompressedState.message_class = fun d =>
      (MessageUpdateCompressed.from_data d).map
        (fun p => (Message.updateCompressed p.1, p.2))) ∧
    (ActionKind.updateRequestState.message_class = fun d =>
      (MessageUpdateReq.from_data d).map (fun p => (Message.updateReq p.1, p.2))) ∧
    (ActionKind.deleteState.message_class = fun d =>
      (MessageState.from_data d).map (fun p => (Message.state p.1, p.2))) ∧
    (ActionKind.deleteCompressedState.message_class = fun d =>
      (MessageDeleteCompressed.from_data d).map
        (fun p => (Message.deleteCompressed p.1, p.2))) := by
  refine ⟨rfl, rfl, rfl, rfl, rfl, rfl, rfl, rfl, ?_, ?_,
    rfl, rfl, rfl, rfl, rfl, rfl, rfl, rfl⟩
  · intro i h1 h2
    interval_cases i <;> rfl
  · intro shdr data kind h
    simp [build_from_header, h]

/-- Witness for C2: id 5 maps to the update-request class, id 9 is
unmapped, and dispatching id 1 with count 0 yields an InsertState action
with no messages. -/
theorem action_table_witness :
    tableEntry 5 = some ActionKind.updateRequestState ∧
    tableEntry 9 = none ∧
    build_from_header ⟨1, 0⟩ [7] =
      Except.ok (some (BaseAction.mk ⟨1, 0⟩ [] ActionKind.insertState), [7]) := by
  refine ⟨action_table_spec.2.2.2.2.2.1, ?_, ?_⟩
  · exact action_table_spec.2.2.2.2.2.2.2.2.1 9 (by decide) (by decide)
  · have h := action_table_spec.2.2.2.2.2.2.2.2.2.1 ⟨1, 0⟩ [7]
      ActionKind.insertState rfl
    exact h.trans (by rfl)

/-- Claim C3: every sub-header whose action id is unmapped — ids 8–14
and every id past the table — makes the top-level dispatch return `None`
together with an empty remainder, for every buffer contents. -/
theorem unmapped_action_spec (shdr : SubHeader) (data : Bytes)
    (h : 8 ≤ shdr.action_id) :
    tableEntry shdr.action_id = none ∧
    build_from_header shdr data = Except.ok (none, []) := by
  obtain ⟨aid, cnt⟩ := shdr
  simp only at h
  have hnone : tableEntry aid = none := by
    rcases Nat.lt_or_ge aid 15 with h15 | h15
    · interval_cases aid <;> rfl
    · refine List.getD_eq_default _ _ ?_
      have : actions.length = 15 := by decide
      omega
  exact ⟨hnone, by simp [build_from_header, hnone]⟩

/-- Witness for C3: action id 12 with a non-empty buffer yields `None`
and an empty remainder. -/
theorem unmapped_action_witness :
    tableEntry 12 = none ∧
    build_from_header ⟨12, 3⟩ [1, 2, 3] = Except.ok (none, []) :=
  unmapped_action_spec ⟨12, 3⟩ [1, 2, 3] (by decide)

/-- Running a fixed-width message decoder over a buffer too short for
`n` messages fails with the truncation error. -/
theorem decodeMessages_truncated (dec : Bytes → Except DecodeError (Message × Bytes))
    (w : Nat) (mk : Bytes → Message)
    (hdec : ∀ d : Bytes, dec d =
      if d.length < w then Except.error DecodeError.truncatedInput
      else Except.ok (mk d, d.drop w)) :
    ∀ (n : Nat) (data : Bytes), data.length < n * w →
      decodeMessages dec n data = Except.error DecodeError.truncatedInput := by
  intro n
  induction n with
  | zero =>
      intro data h
      rw [Nat.zero_mul] at h
      exact absurd h (Nat.not_lt_zero _)
  | succ n ih =>
      intro data h
      have hexp : (n + 1) * w = n * w + w := by ring
      rw [hexp] at h
      by_cases hw : data.length < w
      · simp only [decodeMessages, hdec data, if_pos hw]
      · have h' : (data.drop w).length < n * w := by
          rw [List.length_drop]; omega
        simp only [decodeMessages, hdec data, if_neg hw]
        rw [ih (data.drop w) h']

/-- Claim C4: decoding a buffer shorter than a message type's required
byte width fails with `TruncatedInputError` (the failing decode returns
no value, so nothing is consumed), and an action decode over a buffer
too short for all `count` fixed-width messages fails the same way, with
no partial action returned. -/
theorem truncation_spec (data : Bytes) :
    (data.length < 242 →
      MessageState.from_data data = Except.error DecodeError.truncatedInput) ∧
    (data.length < 12 →
      MessageDeleteCompressed.from_data data = Except.error DecodeError.truncatedInput) ∧
    (data.length < 20 →
      MessageClear.from_data data = Except.error DecodeError.truncatedInput) ∧
    (data.length < 12 →
      MessageInsertAck.from_data data = Except.error DecodeError.truncatedInput) ∧
    (data.length < 12 →
      MessageUpdateReq.from_data data = Except.error DecodeError.truncatedInput) ∧
    (data.length < 84 →
      MessageUpdateCompressed.from_data data = Except.error DecodeError.truncatedInput) ∧
    (∀ (kind : ActionKind) (w : Nat) (mk : Bytes → Message),
      (∀ d : Bytes, kind.message_class d =
        if d.length < w then Except.error DecodeError.truncatedInput
        else Except.ok (mk d, d.drop w)) →
      ∀ shdr : SubHeader, data.length < shdr.count * w →
        BaseAction.from_data kind data shdr = Except.error DecodeError.truncatedInput) := by
  refine ⟨?_, ?_, ?_, ?_, ?_, ?_, ?_⟩
  · intro h
    have hc : calcsize MessageState.get_unpack_format = 242 := by decide
    simp only [MessageState.from_data, unpackFrom, hc, if_pos h]
  · intro h
    have hc : calcsize MessageDeleteCompressed.unpack_format = 12 := by decide
    simp only [MessageDeleteCompressed.from_data, unpackFrom, hc, if_pos h]
  · intro h
    have hc : calcsize MessageClear.unpack_format = 20 := by decide
    simp only [MessageClear.from_data, unpackFrom, hc, if_pos h]
  · intro h
    have hc : calcsize MessageInsertAck.unpack_format = 12 := by decide
    simp only [MessageInsertAck.from_data, unpackFrom, hc, if_pos h]
  · intro h
    have hc : calcsize MessageUpdateReq.unpack_format = 12 := by decide
    simp only [MessageUpdateReq.from_data, unpackFrom, hc, if_pos h]
  · intro h
    have hc : calcsize MessageUpdateCompressed.get_unpack_format = 84 := by decide
    simp only [MessageUpdateCompressed.from_data, unpackFrom, hc, if_pos h]
  · intro kind w mk hdec shdr hlen
    simp [BaseAction.from_data,
      decodeMessages_truncated kind.message_class w mk hdec shdr.count data hlen,
      Except.map]

set_option maxRecDepth 4000 in
/-- Witness for C4: an 11-byte buffer fails the 12-byte compressed-delete
decode, a 241-byte buffer fails the 242-byte state decode, and a 13-byte
buffer fails a count-2 compressed-delete action decode. -/
theorem truncation_witness :
    MessageDeleteCompressed.from_data (List.replicate 11 0) =
      Except.error DecodeError.truncatedInput ∧
    MessageState.from_data (List.replicate 241 0) =
      Except.error DecodeError.truncatedInput ∧
    BaseAction.from_data ActionKind.deleteCompressedState (List.replicate 13 0) ⟨7, 2⟩ =
      Except.error DecodeError.truncatedInput := by
  refine ⟨(truncation_spec _).2.1 (by simp), (truncation_spec _).1 (by simp), ?_⟩
  exact (truncation_spec _).2.2.2.2.2.2 ActionKind.deleteCompressedState 12
    mkDeleteCompressed deleteCompressed_class_fixed ⟨7, 2⟩ (by decide)

/-- Decoding a key from an exactly 36-byte nested field: addresses are
formatted from the two 16-byte fields, ports read big-endian from the
last four bytes. -/
theorem keyFromBytes_spec (bs : Bytes) (h : bs.length = 36) :
    keyFromBytes bs =
      { addr := (PFStateKey.format_addr (bs.take 16),
                 PFStateKey.format_addr ((bs.drop 16).take 16)),
        port := (beVal ((bs.drop 32).take 2), beVal ((bs.drop 34).take 2)) } := by
  have hc : calcsize PFStateKey.unpack_format = 36 := by decide
  have hlt : ¬ bs.length < calcsize PFStateKey.unpack_format := by rw [hc]; omega
  simp only [keyFromBytes, PFStateKey.from_data, unpackFrom, if_neg hlt]
  have hfmt : PFStateKey.unpack_format =
      FieldTy.raw 16 :: FieldTy.raw 16 :: FieldTy.uint 2 :: FieldTy.uint 2 :: [] := rfl
  rw [hfmt]
  simp only [unpackFields, PFStateKey.build]
  simp [List.drop_drop]

/-- The full characterization of a successful state-message decode: each
retained attribute is read from its byte offset, and exactly 242 bytes
are consumed. -/
theorem messageState_from_data_ok (data : Bytes) (h242 : 242 ≤ data.length) :
    MessageState.from_data data =
      Except.ok
        ({ id := beVal (data.take 8),
           creator := beVal ((data.drop 228).take 4),
           interface := ((data.drop 8).take 16).takeWhile (fun b => b != 0),
           key := (keyFromBytes ((data.drop 24).take 36),
                   keyFromBytes ((data.drop 60).take 36)),
           packets := ((beVal ((data.drop 196).take 4), beVal ((data.drop 200).take 4)),
                       (beVal ((data.drop 204).take 4), beVal ((data.drop 208).take 4))),
           bytes := ((beVal ((data.drop 212).take 4), beVal ((data.drop 216).take 4)),
                     (beVal ((data.drop 220).take 4), beVal ((data.drop 224).take 4))),
           protocol := beVal ((data.drop 233).take 1),
           direction := beVal ((data.drop 234).take 1),
           timeout := beVal ((data.drop 239).take 1),
           expire := beVal ((data.drop 192).take 4),
           creation := beVal ((data.drop 188).take 4),
           rule := beVal ((data.drop 176).take 4),
           log := beVal ((data.drop 237).take 1) }, data.drop 242) := by
  have hc : calcsize MessageState.get_unpack_format = 242 := by decide
  have hlt : ¬ data.length < calcsize MessageState.get_unpack_format := by
    rw [hc]; omega
  have hfmt : MessageState.get_unpack_format =
      FieldTy.uint 8 :: FieldTy.raw 16 :: FieldTy.raw 36 :: FieldTy.raw 36 ::
      FieldTy.raw 32 :: FieldTy.raw 32 ::
      FieldTy.uint 4 :: FieldTy.uint 4 :: FieldTy.uint 4 :: FieldTy.uint 4 ::
      FieldTy.uint 4 :: FieldTy.uint 4 :: FieldTy.uint 4 :: FieldTy.uint 4 :: FieldTy.uint 4 ::
      FieldTy.uint 4 :: FieldTy.uint 4 :: FieldTy.uint 4 :: FieldTy.uint 4 ::
      FieldTy.uint 4 :: FieldTy.uint 4 :: FieldTy.uint 4 :: FieldTy.uint 4 ::
      FieldTy.uint 4 ::
      FieldTy.uint 1 :: FieldTy.uint 1 :: FieldTy.uint 1 :: FieldTy.uint 1 :: FieldTy.uint 1 ::
      FieldTy.uint 1 :: FieldTy.uint 1 :: FieldTy.uint 1 :: FieldTy.uint 1 ::
      FieldTy.uint 1 :: [] := by rfl
  simp only [MessageState.from_data, unpackFrom, hc]
  rw [if_neg (by omega : ¬ data.length < 242)]
  refine congrArg Except.ok (Prod.ext ?_ rfl)
  rw [hfmt]
  simp only [unpackFields, MessageState.build]
  simp [List.drop_drop]

set_option maxRecDepth 8000 in
/-- Counterexample to claim C5: the spec's StateMessage field list (a
4-byte rt_addr and eight 1-byte fields) totals 228 bytes, but the source
layout totals 242 bytes, and the decoder rejects a 228-byte buffer — one
that the claimed layout would fill exactly — as truncated. -/
theorem state_layout_counterexample :
    specStateMessageFieldWidths.sum = 228 ∧
    calcsize MessageState.get_unpack_format = 242 ∧
    MessageState.from_data (List.replicate 228 0) =
      Except.error DecodeError.truncatedInput := by
  refine ⟨by decide, by decide, ?_⟩
  rfl

/-- Claim C5 (amended): the StateMessage wire layout consumed by its
decoder is, in order and big-endian: an 8-byte id, a 16-byte interface
name, two 36-byte nested StateKeys, two 32-byte opaque peer blocks, a
16-byte rt_addr decoded as four 4-byte words, five 4-byte counters,
4x4-byte packet counters, 4x4-byte byte counters, a 4-byte creator id,
and ten one-byte fields, the total declared width of 242 bytes being
exactly the number of bytes a successful decode consumes. -/
theorem state_layout_spec :
    MessageState.get_unpack_format =
      ([FieldTy.uint 8] ++ [FieldTy.raw 16] ++
        [FieldTy.raw 36, FieldTy.raw 36] ++ [FieldTy.raw 32, FieldTy.raw 32] ++
        List.replicate 4 (FieldTy.uint 4) ++ List.replicate 5 (FieldTy.uint 4) ++
        List.replicate 4 (FieldTy.uint 4) ++ List.replicate 4 (FieldTy.uint 4) ++
        [FieldTy.uint 4] ++ List.replicate 10 (FieldTy.uint 1)) ∧
    calcsize MessageState.get_unpack_format = 242 ∧
    (∀ data : Bytes, 242 ≤ data.length →
      ∃ m : MessageState, MessageState.from_data data = Except.ok (m, data.drop 242)) :=
  ⟨by decide, by decide, fun data h => ⟨_, messageState_from_data_ok data h⟩⟩

set_option maxRecDepth 8000 in
/-- Witness for the amended C5: a 242-byte buffer decodes successfully
with an empty remainder. -/
theorem state_layout_witness :
    ∃ m : MessageState,
      MessageState.from_data (List.replicate 242 0) = Except.ok (m, []) := by
  obtain ⟨m, hm⟩ := state_layout_spec.2.2 (List.replicate 242 0) (by simp)
  refine ⟨m, hm.trans ?_⟩
  norm_num

/-- Claim C6: for every successfully decoded StateMessage, `is_nat`
returns true iff the stack key's translated address (the second address
field of the second nested key, read at byte offset 76 and formatted)
differs from the wire key's translated address (offset 40); equal
addresses give false. -/
theorem is_nat_spec (data : Bytes) (m : MessageState) (rest : Bytes)
    (h : MessageState.from_data data = Except.ok (m, rest)) :
    (m.is_nat = true ↔ m.key.2.addr.2 ≠ m.key.1.addr.2) ∧
    (m.key.2.addr.2 = m.key.1.addr.2 → m.is_nat = false) ∧
    m.key.1.addr.2 = PFStateKey.format_addr ((data.drop 40).take 16) ∧
    m.key.2.addr.2 = PFStateKey.format_addr ((data.drop 76).take 16) := by
  have h242 : 242 ≤ data.length := by
    by_contra hlt
    push_neg at hlt
    have hc : calcsize MessageState.get_unpack_format = 242 := by decide
    simp only [MessageState.from_data, unpackFrom, hc, if_pos hlt] at h
    exact Except.noConfusion h
  rw [messageState_from_data_ok data h242] at h
  injection h with h2
  injection h2 with hm hr
  subst hm
  refine ⟨by simp [MessageState.is_nat, bne_iff_ne], ?_, ?_, ?_⟩
  · intro he
    simp at he
    simp [MessageState.is_nat, he]
  · have hlen : ((data.drop 24).take 36).length = 36 := by
      simp [List.length_take, List.length_drop]
      omega
    show (keyFromBytes ((data.drop 24).take 36)).addr.2 = _
    rw [keyFromBytes_spec _ hlen]
    show PFStateKey.format_addr ((((data.drop 24).take 36).drop 16).take 16) = _
    rw [List.drop_take, List.drop_drop, List.take_take]
    norm_num
  · have hlen : ((data.drop 60).take 36).length = 36 := by
      simp [List.length_take, List.length_drop]
      omega
    show (keyFromBytes ((data.drop 60).take 36)).addr.2 = _
    rw [keyFromBytes_spec _ hlen]
    show PFStateKey.format_addr ((((data.drop 60).take 36).drop 16).take 16) = _
    rw [List.drop_take, List.drop_drop, List.take_take]
    norm_num

set_option maxRecDepth 8000 in
/-- Witness for C6: a state message whose stack-key translated address
10.0.0.2 differs from the wire-key translated address 10.0.0.1 reports
`is_nat` true. -/
theorem is_nat_witness :
    ∃ (m : MessageState) (rest : Bytes),
      MessageState.from_data natProbe = Except.ok (m, rest) ∧ m.is_nat = true := by
  have hdec := messageState_from_data_ok natProbe (by decide)
  refine ⟨_, _, hdec, ?_⟩
  have h := is_nat_spec natProbe _ _ hdec
  rw [h.1, h.2.2.1, h.2.2.2]
  decide

/-- Claim C7: address formatting uses only the first 4 bytes of the
field, rendered as a dotted-quad IPv4 string; a field starting with the
bytes 10.0.0.1 formats as "10.0.0.1" whatever its trailing bytes. -/
theorem format_addr_spec :
    (∀ bs1 bs2 : Bytes, bs1.take 4 = bs2.take 4 →
      PFStateKey.format_addr bs1 = PFStateKey.format_addr bs2) ∧
    (∀ tail : Bytes,
      PFStateKey.format_addr (10 :: 0 :: 0 :: 1 :: tail) = "10.0.0.1") := by
  constructor
  · intro bs1 bs2 h
    simp only [PFStateKey.format_addr, h]
  · intro tail
    rfl

/-- Witness for C7: a 16-byte field starting 10.0.0.1 with twelve 0xff
trailing bytes formats as "10.0.0.1", and agrees with the bare 4-byte
field. -/
theorem format_addr_witness :
    PFStateKey.format_addr ([10, 0, 0, 1] ++ List.replicate 12 255) =
      PFStateKey.format_addr [10, 0, 0, 1] ∧
    PFStateKey.format_addr (10 :: 0 :: 0 :: 1 :: List.replicate 12 255) = "10.0.0.1" :=
  ⟨format_addr_spec.1 _ _ (by rfl), format_addr_spec.2 _⟩

/-- Claim C8: `get_protocol_name` maps protocol 1 to "ICMP", 6 to "TCP",
17 to "UDP", 112 to "VRRP", and any other protocol number to its decimal
text. -/
theorem protocol_name_spec (m : MessageState) :
    (m.protocol = 1 → m.get_protocol_name = "ICMP") ∧
    (m.protocol = 6 → m.get_protocol_name = "TCP") ∧
    (m.protocol = 17 → m.get_protocol_name = "UDP") ∧
    (m.protocol = 112 → m.get_protocol_name = "VRRP") ∧
    (m.protocol ≠ 1 → m.protocol ≠ 6 → m.protocol ≠ 17 → m.protocol ≠ 112 →
      m.get_protocol_name = toString m.protocol) := by
  refine ⟨?_, ?_, ?_, ?_, ?_⟩ <;> intros <;>
    simp [MessageState.get_protocol_name, *]

/-- Witness for C8: protocol 250 renders as "250". -/
theorem protocol_name_witness :
    MessageState.get_protocol_name { junkState with protocol := 250 } = "250" := by
  have h := (protocol_name_spec { junkState with protocol := 250 }).2.2.2.2
    (by decide) (by decide) (by decide) (by decide)
  exact h.trans (by rfl)

/-- Claim C9: on any buffer of at least 12 bytes the compressed-delete,
insert-ack and update-request decoders all consume the same 12 bytes —
an 8-byte big-endian id then a 4-byte big-endian creator — and produce
records with pairwise equal id and creator fields and equal remainders. -/
theorem compressed_triple_spec (data : Bytes) (h : 12 ≤ data.length) :
    MessageDeleteCompressed.from_data data =
      Except.ok ({ id := beVal (data.take 8), creator := beVal ((data.drop 8).take 4) },
        data.drop 12) ∧
    MessageInsertAck.from_data data =
      Except.ok ({ id := beVal (data.take 8), creator := beVal ((data.drop 8).take 4) },
        data.drop 12) ∧
    MessageUpdateReq.from_data data =
      Except.ok ({ id := beVal (data.take 8), creator := beVal ((data.drop 8).take 4) },
        data.drop 12) := by
  have hlt : ¬ data.length < 12 := by omega
  refine ⟨?_, ?_, ?_⟩
  · have hc : calcsize MessageDeleteCompressed.unpack_format = 12 := by decide
    simp only [MessageDeleteCompressed.from_data, unpackFrom, hc]
    rw [if_neg hlt]
    have hfmt : MessageDeleteCompressed.unpack_format =
        FieldTy.uint 8 :: FieldTy.uint 4 :: [] := rfl
    rw [hfmt]
    simp [unpackFields, MessageDeleteCompressed.build]
  · have hc : calcsize MessageInsertAck.unpack_format = 12 := by decide
    simp only [MessageInsertAck.from_data, unpackFrom, hc]
    rw [if_neg hlt]
    have hfmt : MessageInsertAck.unpack_format =
        FieldTy.uint 8 :: FieldTy.uint 4 :: [] := rfl
    rw [hfmt]
    simp [unpackFields, MessageInsertAck.build]
  · have hc : calcsize MessageUpdateReq.unpack_format = 12 := by decide
    simp only [MessageUpdateReq.from_data, unpackFrom, hc]
    rw [if_neg hlt]
    have hfmt : MessageUpdateReq.unpack_format =
        FieldTy.uint 8 :: FieldTy.uint 4 :: [] := rfl
    rw [hfmt]
    simp [unpackFields, MessageUpdateReq.build]

/-- Witness for C9: a concrete 13-byte buffer decodes identically under
all three decoders, leaving the same 1-byte remainder. -/
theorem compressed_triple_witness :
    MessageDeleteCompressed.from_data [0, 0, 0, 0, 0, 0, 1, 1, 0, 0, 0, 7, 99] =
      Except.ok ({ id := 257, creator := 7 }, [99]) ∧
    MessageInsertAck.from_data [0, 0, 0, 0, 0, 0, 1, 1, 0, 0, 0, 7, 99] =
      Except.ok ({ id := 257, creator := 7 }, [99]) ∧
    MessageUpdateReq.from_data [0, 0, 0, 0, 0, 0, 1, 1, 0, 0, 0, 7, 99] =
      Except.ok ({ id := 257, creator := 7 }, [99]) := by
  have h := compressed_triple_spec [0, 0, 0, 0, 0, 0, 1, 1, 0, 0, 0, 7, 99] (by decide)
  exact ⟨h.1.trans (by rfl), h.2.1.trans (by rfl), h.2.2.trans (by rfl)⟩

/-- Claim C10: a decoded ClearMessage keeps its 16-byte interface field
verbatim, NUL padding included, while a decoded StateMessage cuts its
16-byte interface field at the first NUL byte. -/
theorem interface_handling_spec (data : Bytes) (h : 242 ≤ data.length) :
    (∃ (m : MessageClear) (rest : Bytes),
      MessageClear.from_data data = Except.ok (m, rest) ∧
      m.interface = data.take 16) ∧
    (∃ (m : MessageState) (rest : Bytes),
      MessageState.from_data data = Except.ok (m, rest) ∧
      m.interface = ((data.drop 8).take 16).takeWhile (fun b => b != 0)) := by
  constructor
  · have hc : calcsize MessageClear.unpack_format = 20 := by decide
    have hlt : ¬ data.length < 20 := by omega
    have hdec : MessageClear.from_data data =
        Except.ok ({ interface := data.take 16,
                     creator := beVal ((data.drop 16).take 4) }, data.drop 20) := by
      simp only [MessageClear.from_data, unpackFrom, hc]
      rw [if_neg hlt]
      have hfmt : MessageClear.unpack_format =
          FieldTy.raw 16 :: FieldTy.uint 4 :: [] := rfl
      rw [hfmt]
      simp [unpackFields, MessageClear.build]
    exact ⟨_, _, hdec, rfl⟩
  · exact ⟨_, _, messageState_from_data_ok data h, rfl⟩

set_option maxRecDepth 8000 in
/-- Witness for C10: on a 242-byte probe whose interface fields read
"em0" followed by a NUL and further non-NUL bytes, the clear decode
keeps all 16 bytes while the state decode stops at the NUL. -/
theorem interface_handling_witness :
    (∃ (m : MessageClear) (rest : Bytes),
      MessageClear.from_data ifaceProbe = Except.ok (m, rest) ∧
      m.interface = [101, 109, 48, 0, 7, 0, 0, 0, 101, 109, 48, 0, 7, 0, 0, 0]) ∧
    (∃ (m : MessageState) (rest : Bytes),
      MessageState.from_data ifaceProbe = Except.ok (m, rest) ∧
      m.interface = [101, 109, 48]) := by
  obtain ⟨⟨mc, rc, hc1, hc2⟩, ⟨ms, rs, hs1, hs2⟩⟩ :=
    interface_handling_spec ifaceProbe (by decide)
  exact ⟨⟨mc, rc, hc1, hc2.trans (by rfl)⟩, ⟨ms, rs, hs1, hs2.trans (by rfl)⟩⟩

end PFSync
